import Mathlib

/-!
Shallow embedding of the Studien-Dashboard repository
(`models.py`, `db.py`, `repo.py`) and verification of its specification.

Python floats (grades, averages, ratios) are modelled as rationals (ℚ);
Python ints as ℤ (row ids as ℕ); SQLite tables as Lean lists of row
structures in insertion order, with `ORDER BY` modelled as a stable
insertion sort on the sort key (SQLite scans the base table in rowid,
i.e. insertion, order).
-/

/-- Python `round(x, 2)` uses round-half-to-even (banker's rounding).
`roundHalfEven x` is the integer nearest to `x`, ties going to the even one. -/
def roundHalfEven (x : ℚ) : ℤ :=
  let f : ℤ := ⌊x⌋
  let r : ℚ := x - f
  if r < 1/2 then f
  else if 1/2 < r then f + 1
  else if f % 2 = 0 then f else f + 1

/-- `round(x, 2)` from Python: round to 2 decimal places, half to even. -/
def round2 (x : ℚ) : ℚ := (roundHalfEven (x * 100) : ℚ) / 100

/-- `models.Pruefungsform`: the closed enum of exam forms. -/
inductive Pruefungsform where
  | KLAUSUR
  | HAUSARBEIT
  | PORTFOLIO
  | MUENDLICH
  | PROJEKT
deriving DecidableEq, Repr

/-- `models.Pruefungsleistung`: one exam result belonging to a module.
`note` is the optional grade (1.0–5.0 or absent), `versuch_nr` the attempt. -/
structure Pruefungsleistung where
  bezeichnung : String
  datum : Option String
  note : Option ℚ
  versuch_nr : ℤ
deriving DecidableEq, Repr

/-- `Pruefungsleistung.ist_bestanden`: a grade exists and is ≤ 4.0. -/
def Pruefungsleistung.ist_bestanden (p : Pruefungsleistung) : Bool :=
  match p.note with
  | some n => n ≤ 4
  | none => false

/-- `models.Modul`: a study module owning its exam results. -/
structure Modul where
  name : String
  kuerzel : String
  ects : ℤ
  pruefungsform : Pruefungsform
  leistungen : List Pruefungsleistung
deriving DecidableEq, Repr

/-- The list `[p.note for p in self._leistungen if p.note is not None]`
built inside `Modul.durchschnitt`. -/
def Modul.noten (m : Modul) : List ℚ :=
  m.leistungen.filterMap (fun p => p.note)

/-- `Modul.durchschnitt`: `round(mean(noten), 2) if noten else None`. -/
def Modul.durchschnitt (m : Modul) : Option ℚ :=
  let noten := m.noten
  if noten.isEmpty then none
  else some (round2 (noten.sum / noten.length))

/-- `Modul.ist_bestanden`: the average exists and is ≤ 4.0. -/
def Modul.ist_bestanden (m : Modul) : Bool :=
  match m.durchschnitt with
  | some d => d ≤ 4
  | none => false

/-- `Modul.status`: "offen" without exam results, otherwise
"abgeschlossen" when passed and "laufend" when not. -/
def Modul.status (m : Modul) : String :=
  if m.leistungen.isEmpty then "offen"
  else if m.ist_bestanden then "abgeschlossen" else "laufend"

/-- `models.Semester`: planned and current/passed module associations. -/
structure Semester where
  nummer : ℤ
  bezeichnung : String
  geplante_module : List Modul
  bestandene_module : List Modul
deriving DecidableEq, Repr

/-- `Semester.geplante_ects`: sum of ECTS of the planned modules. -/
def Semester.geplante_ects (s : Semester) : ℤ :=
  (s.geplante_module.map (fun m => m.ects)).sum

/-- `Semester.erreichte_ects`: sum of ECTS of the current/passed modules
that are individually passed. -/
def Semester.erreichte_ects (s : Semester) : ℤ :=
  ((s.bestandene_module.filter (fun m => m.ist_bestanden)).map (fun m => m.ects)).sum

/-- `Semester.fortschritt`: `erreichte / geplante if geplante else 0.0`. -/
def Semester.fortschritt (s : Semester) : ℚ :=
  if s.geplante_ects = 0 then 0 else (s.erreichte_ects : ℚ) / (s.geplante_ects : ℚ)

/-- `models.Studiengang`: aggregate root holding semesters and modules. -/
structure Studiengang where
  name : String
  gesamt_ects : ℤ
  regelstudienzeit : ℤ
  semester : List Semester
  module : List Modul
deriving DecidableEq, Repr

/-- `Studiengang.ects_bestanden`: ECTS sum of all passed modules. -/
def Studiengang.ects_bestanden (sg : Studiengang) : ℤ :=
  ((sg.module.filter (fun m => m.ist_bestanden)).map (fun m => m.ects)).sum

/-- `Studiengang.fortschritt`: `ects_bestanden / gesamt_ects if gesamt_ects else 0.0`. -/
def Studiengang.fortschritt (sg : Studiengang) : ℚ :=
  if sg.gesamt_ects = 0 then 0 else (sg.ects_bestanden : ℚ) / (sg.gesamt_ects : ℚ)

/-- The list `module_mit_note` inside `Studiengang.durchschnitt`. -/
def Studiengang.module_mit_note (sg : Studiengang) : List Modul :=
  sg.module.filter (fun m => m.durchschnitt.isSome)

/-- `Studiengang.durchschnitt`: ECTS-weighted average over all modules with
a grade, `None` when there is none or when their ECTS sum is 0.
(`(m.durchschnitt or 0)` equals `getD 0` here: a falsy average is 0.0,
which contributes 0 either way.) -/
def Studiengang.durchschnitt (sg : Studiengang) : Option ℚ :=
  let mmn := sg.module_mit_note
  if mmn.isEmpty then none
  else
    let ges_ects : ℤ := (mmn.map (fun m => m.ects)).sum
    if ges_ects = 0 then none
    else
      let gew_sum : ℚ := (mmn.map (fun m => (m.durchschnitt.getD 0) * (m.ects : ℚ))).sum
      some (round2 (gew_sum / (ges_ects : ℚ)))

/-! ## Persistence layer: SQLite tables (`db.py`) as lists of rows -/

/-- Row of table `studiengang`. -/
structure StudiengangRow where
  id : ℕ
  name : String
  gesamt_ects : ℤ
  regelstudienzeit : ℤ
deriving DecidableEq, Repr

/-- Row of table `semester`. -/
structure SemesterRow where
  id : ℕ
  nr : ℤ
  bezeichnung : String
  studiengang_id : ℕ
deriving DecidableEq, Repr

/-- Row of table `modul`. `pruefungsform` is stored as text (`Enum.name`). -/
structure ModulRow where
  id : ℕ
  name : String
  kuerzel : String
  ects : ℤ
  pruefungsform : String
  studiengang_id : ℕ
deriving DecidableEq, Repr

/-- Row of table `belegung` (UNIQUE(semester_id, modul_id, art) in the DDL). -/
structure BelegungRow where
  id : ℕ
  art : String
  kommentar : String
  semester_id : ℕ
  modul_id : ℕ
deriving DecidableEq, Repr

/-- Row of table `pruefungsleistung`. -/
structure PLRow where
  id : ℕ
  bezeichnung : String
  datum : Option String
  note : Option ℚ
  versuch_nr : ℤ
  modul_id : ℕ
deriving DecidableEq, Repr

/-- The whole database state: each table as a list of rows in insertion
(rowid) order. -/
structure DB where
  studiengang : List StudiengangRow
  semester : List SemesterRow
  modul : List ModulRow
  belegung : List BelegungRow
  pruefungsleistung : List PLRow
deriving DecidableEq, Repr

/-- Next autogenerated rowid for a freshly inserted row. -/
def nextBelegungId (db : DB) : ℕ :=
  db.belegung.foldr (fun r acc => max (r.id + 1) acc) 1

/-- Next autogenerated rowid for a `pruefungsleistung` insert. -/
def nextPLId (db : DB) : ℕ :=
  db.pruefungsleistung.foldr (fun r acc => max (r.id + 1) acc) 1

/-! ## Gateway operations (`repo.py`, `db.py`)

Fallible operations return `Except String DB`; `.error` stands for a raised
Python exception (ValueError, TypeError on `None["id"]`, KeyError). -/

/-- `repo._get_modul_id`: module id for a code, or a raised ValueError. -/
def _get_modul_id (db : DB) (kuerzel : String) : Except String ℕ :=
  match db.modul.find? (fun m => m.kuerzel = kuerzel) with
  | some r => .ok r.id
  | none => .error ("ValueError: Modul " ++ kuerzel ++ " nicht gefunden")

/-- `repo.get_modul`: master data of a module, or a raised ValueError. -/
def get_modul (db : DB) (kuerzel : String) : Except String ModulRow :=
  match db.modul.find? (fun m => m.kuerzel = kuerzel) with
  | some r => .ok r
  | none => .error ("ValueError: Modul " ++ kuerzel ++ " nicht gefunden")

/-- `repo.update_modul`: update the given fields of a module; parameters
passed as `none` leave the column unchanged. Fails via `_get_modul_id`. -/
def update_modul (db : DB) (kuerzel : String) (name : Option String)
    (new_kuerzel : Option String) (ects : Option ℤ)
    (pruefungsform : Option String) : Except String DB :=
  match _get_modul_id db kuerzel with
  | .error e => .error e
  | .ok mod_id =>
    if name = none ∧ new_kuerzel = none ∧ ects = none ∧ pruefungsform = none then
      .ok db
    else
      .ok { db with
        modul := db.modul.map (fun r =>
          if r.id = mod_id then
            { r with
              name := name.getD r.name
              kuerzel := new_kuerzel.getD r.kuerzel
              ects := ects.getD r.ects
              pruefungsform := pruefungsform.getD r.pruefungsform }
          else r) }

/-- `repo.delete_modul`: delete a module; `ON DELETE CASCADE` removes its
exam results and enrollments. Fails via `_get_modul_id`. -/
def delete_modul (db : DB) (kuerzel : String) : Except String DB :=
  match _get_modul_id db kuerzel with
  | .error e => .error e
  | .ok mod_id =>
    .ok { db with
      modul := db.modul.filter (fun r => r.id ≠ mod_id)
      belegung := db.belegung.filter (fun r => r.modul_id ≠ mod_id)
      pruefungsleistung := db.pruefungsleistung.filter (fun r => r.modul_id ≠ mod_id) }

/-- `repo.create_pruefungsleistung`: insert an exam result for the module
with the given code. A missing module raises (TypeError on `None["id"]`). -/
def create_pruefungsleistung (db : DB) (modul_kuerzel : String)
    (bezeichnung : String) (datum : Option String) (note : Option ℚ)
    (versuch_nr : ℤ) : Except String DB :=
  match db.modul.find? (fun m => m.kuerzel = modul_kuerzel) with
  | none => .error "TypeError: NoneType is not subscriptable"
  | some r =>
    .ok { db with
      pruefungsleistung := db.pruefungsleistung
        ++ [⟨nextPLId db, bezeichnung, datum, note, versuch_nr, r.id⟩] }

/-- `repo.update_pruefungsleistung`: update the given fields of an exam
result by id. Arguments passed as `none` are skipped; an UPDATE whose
WHERE clause matches no row succeeds without effect. Never fails. -/
def update_pruefungsleistung (db : DB) (pl_id : ℕ) (bezeichnung : Option String)
    (datum : Option String) (note : Option ℚ) (versuch_nr : Option ℤ) :
    Except String DB :=
  if bezeichnung = none ∧ datum = none ∧ note = none ∧ versuch_nr = none then
    .ok db
  else
    .ok { db with
      pruefungsleistung := db.pruefungsleistung.map (fun r =>
        if r.id = pl_id then
          { r with
            bezeichnung := bezeichnung.getD r.bezeichnung
            datum := match datum with
              | some d => some d
              | none => r.datum
            note := match note with
              | some n => some n
              | none => r.note
            versuch_nr := versuch_nr.getD r.versuch_nr }
        else r) }

/-- `repo.delete_pruefungsleistung`: `DELETE FROM pruefungsleistung WHERE
id=?`; a DELETE matching no row succeeds without effect. Never fails. -/
def delete_pruefungsleistung (db : DB) (pl_id : ℕ) : Except String DB :=
  .ok { db with pruefungsleistung := db.pruefungsleistung.filter (fun r => r.id ≠ pl_id) }

/-- The semester lookup of `repo.create_belegung`: `SELECT s.id FROM
semester s JOIN studiengang g ON g.id=s.studiengang_id WHERE s.nr=? LIMIT 1`. -/
def findSemesterJoined (db : DB) (nr : ℤ) : Option SemesterRow :=
  db.semester.find? (fun s =>
    s.nr = nr ∧ db.studiengang.any (fun g => g.id = s.studiengang_id))

/-- `SELECT id FROM semester WHERE nr=? LIMIT 1` (update/delete_belegung). -/
def findSemester (db : DB) (nr : ℤ) : Option SemesterRow :=
  db.semester.find? (fun s => s.nr = nr)

/-- `SELECT id FROM modul WHERE kuerzel=? LIMIT 1`. -/
def findModul (db : DB) (kuerzel : String) : Option ModulRow :=
  db.modul.find? (fun m => m.kuerzel = kuerzel)

/-- `repo.create_belegung`: resolve semester number and module code (a
missing one raises TypeError), then `INSERT OR IGNORE` into `belegung` —
a row whose (semester_id, modul_id, art) already exists is ignored. -/
def create_belegung (db : DB) (semester_nr : ℤ) (modul_kuerzel : String)
    (art : String) (kommentar : String) : Except String DB :=
  match findSemesterJoined db semester_nr with
  | none => .error "TypeError: NoneType is not subscriptable"
  | some s =>
    match findModul db modul_kuerzel with
    | none => .error "TypeError: NoneType is not subscriptable"
    | some m =>
      if db.belegung.any (fun b =>
          b.semester_id = s.id ∧ b.modul_id = m.id ∧ b.art = art) then
        .ok db
      else
        .ok { db with
          belegung := db.belegung ++ [⟨nextBelegungId db, art, kommentar, s.id, m.id⟩] }

/-- `repo.update_belegung`: resolve semester and module (missing → raised
TypeError), then update art/kommentar of the enrollments of that pair. -/
def update_belegung (db : DB) (semester_nr : ℤ) (modul_kuerzel : String)
    (art : Option String) (kommentar : Option String) : Except String DB :=
  match findSemester db semester_nr with
  | none => .error "TypeError: NoneType is not subscriptable"
  | some s =>
    match findModul db modul_kuerzel with
    | none => .error "TypeError: NoneType is not subscriptable"
    | some m =>
      if art = none ∧ kommentar = none then .ok db
      else
        .ok { db with
          belegung := db.belegung.map (fun b =>
            if b.semester_id = s.id ∧ b.modul_id = m.id then
              { b with
                art := art.getD b.art
                kommentar := kommentar.getD b.kommentar }
            else b) }

/-- `repo.delete_belegung`: resolve semester and module (missing → raised
TypeError), then delete the enrollment of that (semester, module, art). -/
def delete_belegung (db : DB) (semester_nr : ℤ) (modul_kuerzel : String)
    (art : String) : Except String DB :=
  match findSemester db semester_nr with
  | none => .error "TypeError: NoneType is not subscriptable"
  | some s =>
    match findModul db modul_kuerzel with
    | none => .error "TypeError: NoneType is not subscriptable"
    | some m =>
      .ok { db with
        belegung := db.belegung.filter (fun b =>
          ¬(b.semester_id = s.id ∧ b.modul_id = m.id ∧ b.art = art)) }

/-- `db.init_if_needed`: run the (idempotent) DDL, then, only when the
`studiengang` table is empty, insert the default program
("Bachelor Cybersecurity", 180 ECTS, 8 semesters) and semesters 1–8. -/
def init_if_needed (db : DB) : DB :=
  if db.studiengang.isEmpty then
    { db with
      studiengang := db.studiengang ++ [⟨1, "Bachelor Cybersecurity", 180, 8⟩]
      semester := db.semester ++
        (List.range 8).map (fun i =>
          ⟨i + 1, (i : ℤ) + 1, "Semester " ++ toString (i + 1), 1⟩) }
  else db

/-! ## `ORDER BY` as a stable sort

SQLite scans the base table in rowid (insertion) order; `ORDER BY key`
then sorts without reordering ties of the scan. We model it as a stable
insertion sort on the integer key. -/

/-- Stable insertion of `r` into `l`: `r` goes before the first element
whose key is ≥ its own, so earlier-inserted equal-key rows stay first. -/
def insKey (key : α → ℤ) (r : α) : List α → List α
  | [] => [r]
  | x :: xs => if key r ≤ key x then r :: x :: xs else x :: insKey key r xs

/-- Stable insertion sort by an integer key. -/
def sortKey (key : α → ℤ) : List α → List α
  | [] => []
  | x :: xs => insKey key x (sortKey key xs)

/-! ## Graph construction (`repo.load_domain`) -/

namespace Pruefungsform

/-- `Pruefungsform[text]`: enum member by name, `none` for a KeyError. -/
def ofString? : String → Option Pruefungsform
  | "KLAUSUR" => some KLAUSUR
  | "HAUSARBEIT" => some HAUSARBEIT
  | "PORTFOLIO" => some PORTFOLIO
  | "MUENDLICH" => some MUENDLICH
  | "PROJEKT" => some PROJEKT
  | _ => none

end Pruefungsform

/-- Parse the stored `pruefungsform` text of every module row; `none` as
soon as one row holds an invalid enum name (KeyError in `load_domain`). -/
def parseModulRows : List ModulRow → Option (List (ModulRow × Pruefungsform))
  | [] => some []
  | r :: rs =>
    match Pruefungsform.ofString? r.pruefungsform, parseModulRows rs with
    | some pf, some rest => some ((r, pf) :: rest)
    | _, _ => none

/-- Convert a stored exam-result row to the domain object. -/
def toPL (r : PLRow) : Pruefungsleistung :=
  ⟨r.bezeichnung, r.datum, r.note, r.versuch_nr⟩

/-- The exam-result rows `load_domain` attaches to module `mid`:
the whole table read with `ORDER BY versuch_nr`, restricted to the rows
appended to that module. -/
def modulRows (db : DB) (mid : ℕ) : List PLRow :=
  (sortKey (fun r => r.versuch_nr) db.pruefungsleistung).filter
    (fun r => r.modul_id = mid)

/-- Domain `Modul` built by `load_domain` for a module row. -/
def toModul (db : DB) (r : ModulRow) (pf : Pruefungsform) : Modul :=
  ⟨r.name, r.kuerzel, r.ects, pf, (modulRows db r.id).map toPL⟩

/-- Domain `Semester` built by `load_domain`: the enrollments of this
semester, scanned in table order, append the module with `art = "geplant"`
to the planned list and any other `art` to the current/passed list. -/
def toSemester (db : DB) (mods : List (ModulRow × Pruefungsform))
    (s : SemesterRow) : Semester :=
  ⟨s.nr, s.bezeichnung,
    (db.belegung.filter (fun b => b.semester_id = s.id ∧ b.art = "geplant")).filterMap
      (fun b => (mods.find? (fun mp => mp.1.id = b.modul_id)).map
        (fun mp => toModul db mp.1 mp.2)),
    (db.belegung.filter (fun b => b.semester_id = s.id ∧ b.art ≠ "geplant")).filterMap
      (fun b => (mods.find? (fun mp => mp.1.id = b.modul_id)).map
        (fun mp => toModul db mp.1 mp.2))⟩

/-- `repo.load_domain`: build the whole domain graph from the database.
Fails when the `studiengang` table is empty (TypeError), when a module row
stores an invalid exam-form name (KeyError), or when an enrollment or
exam-result row references a semester/module outside the loaded maps
(KeyError). -/
def load_domain (db : DB) : Except String Studiengang :=
  match db.studiengang.head? with
  | none => .error "TypeError: NoneType is not subscriptable"
  | some sgr =>
    let semRows := sortKey (fun s => s.nr)
      (db.semester.filter (fun s => s.studiengang_id = sgr.id))
    let modRows := db.modul.filter (fun m => m.studiengang_id = sgr.id)
    match parseModulRows modRows with
    | none => .error "KeyError: invalid Pruefungsform"
    | some mods =>
      if db.belegung.all (fun b =>
          (semRows.any (fun s => s.id = b.semester_id)) &&
          (modRows.any (fun m => m.id = b.modul_id))) then
        if db.pruefungsleistung.all (fun p =>
            modRows.any (fun m => m.id = p.modul_id)) then
          .ok ⟨sgr.name, sgr.gesamt_ects, sgr.regelstudienzeit,
            semRows.map (toSemester db mods),
            mods.map (fun mp => toModul db mp.1 mp.2)⟩
        else .error "KeyError: pruefungsleistung references missing modul"
      else .error "KeyError: belegung references missing semester or modul"

/-! ## Shared helper lemmas -/

/-- A module is passed exactly when its average exists and is ≤ 4.0. -/
theorem Modul.ist_bestanden_iff (m : Modul) :
    m.ist_bestanden = true ↔ ∃ d, m.durchschnitt = some d ∧ d ≤ 4 := by
  unfold Modul.ist_bestanden
  cases h : m.durchschnitt with
  | none => simp
  | some d => simp [decide_eq_true_eq]

/-- The average is absent exactly when no exam result carries a grade. -/
theorem Modul.durchschnitt_eq_none_iff (m : Modul) :
    m.durchschnitt = none ↔ m.noten = [] := by
  unfold Modul.durchschnitt
  by_cases h : m.noten.isEmpty <;>
    simp_all [List.isEmpty_iff]

/-- The average of a module with at least one graded exam result. -/
theorem Modul.durchschnitt_of_ne_nil (m : Modul) (h : m.noten ≠ []) :
    m.durchschnitt = some (round2 (m.noten.sum / m.noten.length)) := by
  unfold Modul.durchschnitt
  simp [List.isEmpty_iff, h]

/-! ## Claim theorems -/

/-- C1: a Module's derived average equals the arithmetic mean of the grades
of exactly those of its ExamResults whose grade is present, rounded to 2
decimals, and is absent (None) when no ExamResult has a grade. -/
theorem C1_modul_durchschnitt (m : Modul) :
    (m.leistungen.filterMap (fun p => p.note) = [] → m.durchschnitt = none) ∧
    (∀ noten : List ℚ, noten = m.leistungen.filterMap (fun p => p.note) →
      noten ≠ [] → m.durchschnitt = some (round2 (noten.sum / noten.length))) := by
  constructor
  · intro h
    exact (Modul.durchschnitt_eq_none_iff m).mpr h
  · intro noten hn hne
    subst hn
    exact Modul.durchschnitt_of_ne_nil m hne

/-- Concrete module for the end-to-end test of the specification:
"Algorithms", code "ALG1", 5 ECTS, written exam, one result graded 1.7. -/
def mALG : Modul :=
  ⟨"Algorithms", "ALG1", 5, .KLAUSUR, [⟨"Klausur", some "2024-01-15", some (17/10), 1⟩]⟩

/-- C1 witness: the end-to-end module with a single grade 1.7 has average
exactly 1.70. -/
theorem C1_modul_durchschnitt_witness : mALG.durchschnitt = some (17/10) := by
  have h := (C1_modul_durchschnitt mALG).2 [17/10]
    (by simp [mALG, List.filterMap_cons]) (by simp)
  rw [h]
  norm_num [round2, roundHalfEven]

/-- C2: status is "offen" exactly when there are no exam results,
"abgeschlossen" exactly when the average exists and is ≤ 4.0, "laufend"
otherwise; a module whose exam results are all ungraded has an absent
average and status "laufend". -/
theorem C2_modul_status (m : Modul) :
    (m.status = "offen" ↔ m.leistungen = []) ∧
    (m.status = "abgeschlossen" ↔ ∃ d, m.durchschnitt = some d ∧ d ≤ 4) ∧
    (m.status = "laufend" ↔
      m.leistungen ≠ [] ∧ ¬∃ d, m.durchschnitt = some d ∧ d ≤ 4) ∧
    ((m.leistungen ≠ [] ∧ ∀ p ∈ m.leistungen, p.note = none) →
      m.durchschnitt = none ∧ m.status = "laufend") := by
  have hbest := Modul.ist_bestanden_iff m
  by_cases hle : m.leistungen = []
  · have hnone : m.durchschnitt = none := by
      apply (Modul.durchschnitt_eq_none_iff m).mpr
      simp [Modul.noten, hle]
    refine ⟨by simp [Modul.status, hle], ?_, ?_, ?_⟩
    · simp [Modul.status, hle, hnone]
    · simp [Modul.status, hle, hnone]
    · intro h
      exact absurd hle h.1
  · by_cases hb : m.ist_bestanden = true
    · have hst : m.status = "abgeschlossen" := by
        simp [Modul.status, List.isEmpty_iff, hle, hb]
      refine ⟨by simp [hst, hle], by simp [hst, hbest.mp hb], ?_, ?_⟩
      · simp [hst, hbest.mp hb]
      · intro ⟨_, hall⟩
        have hnone : m.durchschnitt = none := by
          apply (Modul.durchschnitt_eq_none_iff m).mpr
          simp [Modul.noten, List.filterMap_eq_nil_iff]
          exact hall
        obtain ⟨d, hd, _⟩ := hbest.mp hb
        rw [hnone] at hd
        cases hd
    · have hst : m.status = "laufend" := by
        simp [Modul.status, List.isEmpty_iff, hle, hb]
      have hnotex : ¬∃ d, m.durchschnitt = some d ∧ d ≤ 4 := by
        intro hex
        exact hb (hbest.mpr hex)
      refine ⟨by simp [hst, hle], by simp [hst, hnotex], by simp [hst, hle, hnotex], ?_⟩
      intro ⟨_, hall⟩
      refine ⟨?_, hst⟩
      apply (Modul.durchschnitt_eq_none_iff m).mpr
      simp [Modul.noten, List.filterMap_eq_nil_iff]
      exact hall

/-- A module with one still-ungraded exam result. -/
def mUngraded : Modul := ⟨"Mathe", "MAT1", 5, .KLAUSUR, [⟨"Klausur", none, none, 1⟩]⟩

/-- C2 witness: a module with one ungraded exam result has an absent
average and status "laufend"; the end-to-end module is "abgeschlossen". -/
theorem C2_modul_status_witness :
    (mUngraded.durchschnitt = none ∧ mUngraded.status = "laufend") ∧
    mALG.status = "abgeschlossen" := by
  constructor
  · exact (C2_modul_status mUngraded).2.2.2
      ⟨by simp [mUngraded], by simp [mUngraded]⟩
  · apply ((C2_modul_status mALG).2.1).mpr
    refine ⟨17/10, ?_, by norm_num⟩
    norm_num [mALG, Modul.durchschnitt, Modul.noten, List.filterMap_cons,
      round2, roundHalfEven]

/-- C3: the Program's weighted average equals the ECTS-weighted mean of the
averages of all Modules having one, rounded to 2 decimals, and is absent
when no Module has an average. -/
theorem C3_studiengang_durchschnitt (sg : Studiengang) :
    ((∀ m ∈ sg.module, m.durchschnitt = none) → sg.durchschnitt = none) ∧
    (∀ mm : List Modul, sg.module.filter (fun m => m.durchschnitt.isSome) = mm →
      mm ≠ [] → (mm.map (fun m => m.ects)).sum ≠ 0 →
      sg.durchschnitt = some (round2 (
        (mm.map (fun m => (m.durchschnitt.getD 0) * (m.ects : ℚ))).sum /
        (((mm.map (fun m => m.ects)).sum : ℤ) : ℚ)))) := by
  constructor
  · intro hall
    have hfil : sg.module_mit_note = [] := by
      unfold Studiengang.module_mit_note
      simp only [List.filter_eq_nil_iff]
      intro m hm
      simp [hall m hm]
    unfold Studiengang.durchschnitt
    simp [hfil]
  · intro mm hmm hne hsum
    unfold Studiengang.durchschnitt
    have hfil : sg.module_mit_note = mm := hmm
    simp only [hfil, List.isEmpty_iff, hsum, if_neg hne, if_neg hsum]
    simp

/-- Example module A of the specification: 5 ECTS, average 2.0. -/
def mA : Modul := ⟨"A", "MODA", 5, .KLAUSUR, [⟨"Klausur", none, some 2, 1⟩]⟩

/-- Example module B of the specification: 10 ECTS, average 3.0. -/
def mB : Modul := ⟨"B", "MODB", 10, .HAUSARBEIT, [⟨"Hausarbeit", none, some 3, 1⟩]⟩

/-- The example Program of the specification holding modules A and B. -/
def sgEx : Studiengang := ⟨"Bachelor Cybersecurity", 180, 8, [], [mA, mB]⟩

/-- C3 witness: with modules of (credits 5, average 2.0) and
(credits 10, average 3.0) the weighted average is (5·2+10·3)/15 = 2.67. -/
theorem C3_studiengang_durchschnitt_witness : sgEx.durchschnitt = some (267/100) := by
  have hA : mA.durchschnitt = some 2 := by
    norm_num [mA, Modul.durchschnitt, Modul.noten, List.filterMap_cons,
      round2, roundHalfEven]
  have hB : mB.durchschnitt = some 3 := by
    norm_num [mB, Modul.durchschnitt, Modul.noten, List.filterMap_cons,
      round2, roundHalfEven]
  have hfil : sgEx.module.filter (fun m => m.durchschnitt.isSome) = [mA, mB] := by
    simp [sgEx, List.filter_cons, hA, hB]
  have h := (C3_studiengang_durchschnitt sgEx).2 [mA, mB] hfil
    (by simp) (by norm_num [mA, mB])
  rw [h]
  simp only [List.map_cons, List.map_nil, List.sum_cons, List.sum_nil, hA, hB]
  norm_num [mA, mB, round2, roundHalfEven]

/-- C4: planned credits are the ECTS sum of the planned list, earned
credits the ECTS sum of the passed modules of the current/passed list,
and semester progress is earned/planned, defined as 0 when nothing is
planned (total function, never a division error). -/
theorem C4_semester_kennzahlen (s : Semester) :
    s.geplante_ects = (s.geplante_module.map (fun m => m.ects)).sum ∧
    s.erreichte_ects =
      ((s.bestandene_module.filter (fun m => m.ist_bestanden)).map (fun m => m.ects)).sum ∧
    (s.geplante_ects ≠ 0 →
      s.fortschritt = (s.erreichte_ects : ℚ) / (s.geplante_ects : ℚ)) ∧
    (s.geplante_ects = 0 → s.fortschritt = 0) := by
  refine ⟨rfl, rfl, ?_, ?_⟩ <;> intro h <;> simp [Semester.fortschritt, h]

/-- Semester 1 with the end-to-end module planned and passed. -/
def semW : Semester := ⟨1, "Semester 1", [mALG], [mALG]⟩

/-- C4 witness: the concrete semester has 5 planned ECTS, 5 earned ECTS
and progress 5/5 = 1. -/
theorem C4_semester_kennzahlen_witness :
    semW.geplante_ects = 5 ∧ semW.erreichte_ects = 5 ∧ semW.fortschritt = 1 := by
  have hd : mALG.durchschnitt = some (17/10) := by
    norm_num [mALG, Modul.durchschnitt, Modul.noten, List.filterMap_cons,
      round2, roundHalfEven]
  have hbest : mALG.ist_bestanden = true := by
    simp only [Modul.ist_bestanden, hd]
    norm_num
  have hgep : semW.geplante_ects = 5 := by
    simp [semW, Semester.geplante_ects, mALG]
  have herr : semW.erreichte_ects = 5 := by
    simp only [semW, Semester.erreichte_ects, List.filter_cons, List.filter_nil, hbest]
    simp [mALG]
  have h := (C4_semester_kennzahlen semW).2.2.1 (by rw [hgep]; norm_num)
  refine ⟨hgep, herr, ?_⟩
  rw [h, hgep, herr]
  norm_num

/-- Sum of the ECTS of the passed modules can only grow when each module
keeps its ECTS (nonnegative) and passing is only gained, never lost. -/
theorem bestanden_ects_sum_le {l l' : List Modul}
    (h : List.Forall₂ (fun m m' =>
      m.ects = m'.ects ∧ 0 ≤ m.ects ∧ (m.ist_bestanden = true → m'.ist_bestanden = true)) l l') :
    ((l.filter (fun m => m.ist_bestanden)).map (fun m => m.ects)).sum ≤
    ((l'.filter (fun m => m.ist_bestanden)).map (fun m => m.ects)).sum := by
  induction h with
  | nil => simp
  | @cons a b l₁ l₂ hab htail ih =>
    obtain ⟨hects, hnn, himp⟩ := hab
    by_cases hb : a.ist_bestanden = true
    · have hb' := himp hb
      simp only [List.filter_cons, hb, hb', if_pos, List.map_cons, List.sum_cons]
      rw [hects]
      exact add_le_add_left ih _
    · by_cases hb' : b.ist_bestanden = true
      · simp only [List.filter_cons, hb, hb', if_pos, List.map_cons, List.sum_cons]
        simp only [if_neg, Bool.false_eq_true, if_false]
        calc ((l₁.filter (fun m => m.ist_bestanden)).map (fun m => m.ects)).sum
            ≤ ((l₂.filter (fun m => m.ist_bestanden)).map (fun m => m.ects)).sum := ih
          _ ≤ b.ects + ((l₂.filter (fun m => m.ist_bestanden)).map (fun m => m.ects)).sum := by
              have : 0 ≤ b.ects := hects ▸ hnn
              linarith
      · simp only [List.filter_cons, hb, hb', Bool.false_eq_true, if_false]
        exact ih

/-- C5: program-wide earned credits are the ECTS sum of the passed modules
(counted once, independently of the semester lists), program progress is
earned/total (0 for target 0), and progress is monotone when modules only
gain passed status while keeping their ECTS. -/
theorem C5_studiengang_fortschritt (sg sg' : Studiengang)
    (hges : sg'.gesamt_ects = sg.gesamt_ects)
    (hnn : 0 ≤ sg.gesamt_ects)
    (hmods : List.Forall₂ (fun m m' =>
      m.ects = m'.ects ∧ 0 ≤ m.ects ∧ (m.ist_bestanden = true → m'.ist_bestanden = true))
      sg.module sg'.module) :
    sg.ects_bestanden =
      ((sg.module.filter (fun m => m.ist_bestanden)).map (fun m => m.ects)).sum ∧
    (∀ t : Studiengang, t.module = sg.module → t.ects_bestanden = sg.ects_bestanden) ∧
    (sg.gesamt_ects ≠ 0 →
      sg.fortschritt = (sg.ects_bestanden : ℚ) / (sg.gesamt_ects : ℚ)) ∧
    (sg.gesamt_ects = 0 → sg.fortschritt = 0) ∧
    sg.fortschritt ≤ sg'.fortschritt := by
  refine ⟨rfl, ?_, ?_, ?_, ?_⟩
  · intro t ht
    unfold Studiengang.ects_bestanden
    rw [ht]
  · intro h
    simp [Studiengang.fortschritt, h]
  · intro h
    simp [Studiengang.fortschritt, h]
  · have hsum : sg.ects_bestanden ≤ sg'.ects_bestanden := bestanden_ects_sum_le hmods
    unfold Studiengang.fortschritt
    by_cases h0 : sg.gesamt_ects = 0
    · simp [h0, hges]
    · have h0' : ¬sg'.gesamt_ects = 0 := by rw [hges]; exact h0
      rw [if_neg h0, if_neg h0', hges]
      have hpos : (0 : ℚ) < (sg.gesamt_ects : ℚ) := by
        have : 0 < sg.gesamt_ects := lt_of_le_of_ne hnn (Ne.symm h0)
        exact_mod_cast this
      apply div_le_div_of_nonneg_right ?_ hpos.le
      exact_mod_cast hsum

/-- The module of `mUngraded` after its exam result received grade 2.0. -/
def mGraded : Modul := ⟨"Mathe", "MAT1", 5, .KLAUSUR, [⟨"Klausur", none, some 2, 1⟩]⟩

/-- Program state before the module is graded. -/
def sgBefore : Studiengang := ⟨"Bachelor Cybersecurity", 180, 8, [], [mUngraded]⟩

/-- Program state after the module is graded (and thereby passed). -/
def sgAfter : Studiengang := ⟨"Bachelor Cybersecurity", 180, 8, [], [mGraded]⟩

/-- C5 witness: once the only module becomes passed, program progress does
not decrease (here it grows from 0 to 5/180). -/
theorem C5_studiengang_fortschritt_witness :
    sgBefore.fortschritt ≤ sgAfter.fortschritt := by
  have hbest : mGraded.ist_bestanden = true := by
    have hd : mGraded.durchschnitt = some 2 := by
      norm_num [mGraded, Modul.durchschnitt, Modul.noten, List.filterMap_cons,
        round2, roundHalfEven]
    simp only [Modul.ist_bestanden, hd]
    norm_num
  exact (C5_studiengang_fortschritt sgBefore sgAfter rfl (by norm_num [sgBefore])
    (List.Forall₂.cons ⟨rfl, by norm_num [mUngraded], fun _ => hbest⟩
      List.Forall₂.nil)).2.2.2.2

/-- C6: inserting an enrollment whose (semester, module, kind) triple is
already stored succeeds as a no-op: the call returns the unchanged state
and exactly one row with that triple remains (the UNIQUE constraint keeps
the count at 1 beforehand, taken as hypothesis). -/
theorem C6_create_belegung_idempotent (db : DB) (nr : ℤ) (k art kom : String)
    (s : SemesterRow) (m : ModulRow)
    (hs : findSemesterJoined db nr = some s)
    (hm : findModul db k = some m)
    (hone : (db.belegung.filter (fun b =>
      b.semester_id = s.id ∧ b.modul_id = m.id ∧ b.art = art)).length = 1) :
    create_belegung db nr k art kom = .ok db ∧
    (db.belegung.filter (fun b =>
      b.semester_id = s.id ∧ b.modul_id = m.id ∧ b.art = art)).length = 1 := by
  refine ⟨?_, hone⟩
  unfold create_belegung
  rw [hs, hm]
  have hex : db.belegung.any (fun b =>
      b.semester_id = s.id ∧ b.modul_id = m.id ∧ b.art = art) = true := by
    rw [List.any_eq_true]
    have hne : (db.belegung.filter (fun b =>
        b.semester_id = s.id ∧ b.modul_id = m.id ∧ b.art = art)) ≠ [] := by
      intro hnil
      rw [hnil] at hone
      simp at hone
    obtain ⟨b, hb⟩ := List.exists_mem_of_ne_nil _ hne
    obtain ⟨hmem, hpred⟩ := List.mem_filter.mp hb
    exact ⟨b, hmem, hpred⟩
  simp [hex]
  intro hall
  rw [List.any_eq_true] at hex
  obtain ⟨b, hbmem, hbp⟩ := hex
  simp only [decide_eq_true_eq] at hbp
  exact absurd hbp.2.2 (hall b hbmem hbp.1 hbp.2.1)

/-- Concrete state: one program, semester 1, module "ALG1", and the
enrollment (semester 1, "ALG1", "geplant") already stored. -/
def dbBel : DB :=
  ⟨[⟨1, "Bachelor Cybersecurity", 180, 8⟩],
   [⟨1, 1, "Semester 1", 1⟩],
   [⟨1, "Algorithms", "ALG1", 5, "KLAUSUR", 1⟩],
   [⟨1, "geplant", "", 1, 1⟩],
   []⟩

/-- C6 witness: re-inserting the stored (semester 1, "ALG1", "geplant")
enrollment returns the state unchanged with exactly one such row. -/
theorem C6_create_belegung_idempotent_witness :
    create_belegung dbBel 1 "ALG1" "geplant" "" = .ok dbBel ∧
    (dbBel.belegung.filter (fun b =>
      b.semester_id = 1 ∧ b.modul_id = 1 ∧ b.art = "geplant")).length = 1 := by
  exact C6_create_belegung_idempotent dbBel 1 "ALG1" "geplant" ""
    ⟨1, 1, "Semester 1", 1⟩ ⟨1, "Algorithms", "ALG1", 5, "KLAUSUR", 1⟩
    (by simp [findSemesterJoined, dbBel, List.find?])
    (by simp [findModul, dbBel, List.find?])
    (by simp [dbBel, List.filter])

/-- Concrete state without any stored exam result and without module "XX". -/
def dbC7 : DB :=
  ⟨[⟨1, "Bachelor Cybersecurity", 180, 8⟩],
   [⟨1, 1, "Semester 1", 1⟩],
   [⟨1, "Algorithms", "ALG1", 5, "KLAUSUR", 1⟩],
   [],
   [⟨1, "Klausur", none, some 2, 1, 1⟩]⟩

/-- C7 counterexample: the claim is false — `delete_pruefungsleistung` and
`update_pruefungsleistung` called with exam-result id 99, which does not
exist in the state, silently succeed and change nothing instead of
failing. -/
theorem C7_notfound_counterexample :
    (dbC7.pruefungsleistung.all (fun r => r.id ≠ 99)) = true ∧
    delete_pruefungsleistung dbC7 99 = .ok dbC7 ∧
    update_pruefungsleistung dbC7 99 (some "Neu") none none none = .ok dbC7 := by
  refine ⟨by simp [dbC7], ?_, ?_⟩
  · unfold delete_pruefungsleistung
    simp [dbC7, List.filter]
  · unfold update_pruefungsleistung
    simp [dbC7, List.map]

/-- C7 (amended): the gateway operations that resolve a module code or a
semester number (get_modul, update_modul, delete_modul,
create_pruefungsleistung, create_belegung, update_belegung,
delete_belegung) fail explicitly when the reference does not exist;
only update/delete_pruefungsleistung lack such a check. -/
theorem C7_notfound_amended (db : DB) (k : String) (nr : ℤ)
    (hk : findModul db k = none) :
    (∃ e, get_modul db k = .error e) ∧
    (∀ n nk e pf, ∃ err, update_modul db k n nk e pf = .error err) ∧
    (∃ e, delete_modul db k = .error e) ∧
    (∀ b d n v, ∃ e, create_pruefungsleistung db k b d n v = .error e) ∧
    (∀ a kom, ∃ e, create_belegung db nr k a kom = .error e) ∧
    (∀ a kom, ∃ e, update_belegung db nr k a kom = .error e) ∧
    (∀ a, ∃ e, delete_belegung db nr k a = .error e) ∧
    (findSemesterJoined db nr = none →
      ∀ k2 a kom, ∃ e, create_belegung db nr k2 a kom = .error e) ∧
    (findSemester db nr = none →
      (∀ k2 a kom, ∃ e, update_belegung db nr k2 a kom = .error e) ∧
      (∀ k2 a, ∃ e, delete_belegung db nr k2 a = .error e)) := by
  have hid : ∃ e, _get_modul_id db k = .error e := by
    unfold _get_modul_id
    unfold findModul at hk
    rw [hk]
    exact ⟨_, rfl⟩
  obtain ⟨e0, he0⟩ := hid
  refine ⟨?_, ?_, ?_, ?_, ?_, ?_, ?_, ?_, ?_⟩
  · unfold get_modul
    unfold findModul at hk
    rw [hk]
    exact ⟨_, rfl⟩
  · intro n nk e pf
    unfold update_modul
    rw [he0]
    exact ⟨_, rfl⟩
  · unfold delete_modul
    rw [he0]
    exact ⟨_, rfl⟩
  · intro b d n v
    unfold create_pruefungsleistung
    unfold findModul at hk
    rw [hk]
    exact ⟨_, rfl⟩
  · intro a kom
    unfold create_belegung
    cases hsem : findSemesterJoined db nr with
    | none => exact ⟨_, rfl⟩
    | some s =>
      rw [hk]
      exact ⟨_, rfl⟩
  · intro a kom
    unfold update_belegung
    cases hsem : findSemester db nr with
    | none => exact ⟨_, rfl⟩
    | some s =>
      rw [hk]
      exact ⟨_, rfl⟩
  · intro a
    unfold delete_belegung
    cases hsem : findSemester db nr with
    | none => exact ⟨_, rfl⟩
    | some s =>
      rw [hk]
      exact ⟨_, rfl⟩
  · intro hsem k2 a kom
    unfold create_belegung
    rw [hsem]
    exact ⟨_, rfl⟩
  · intro hsem
    constructor
    · intro k2 a kom
      unfold update_belegung
      rw [hsem]
      exact ⟨_, rfl⟩
    · intro k2 a
      unfold delete_belegung
      rw [hsem]
      exact ⟨_, rfl⟩

/-- C7 witness: on the concrete state, module code "XX" and semester 99 do
not exist and the seven resolving operations all fail explicitly. -/
theorem C7_notfound_amended_witness :
    (∃ e, get_modul dbC7 "XX" = .error e) ∧
    (∃ e, delete_modul dbC7 "XX" = .error e) ∧
    (∃ e, create_pruefungsleistung dbC7 "XX" "B" none none 1 = .error e) ∧
    (∃ e, create_belegung dbC7 99 "ALG1" "geplant" "" = .error e) := by
  have h := C7_notfound_amended dbC7 "XX" 99
    (by simp [findModul, dbC7, List.find?])
  have hsem : findSemesterJoined dbC7 99 = none := by
    simp [findSemesterJoined, dbC7, List.find?]
  exact ⟨h.1, h.2.2.1, h.2.2.2.1 "B" none none 1,
    h.2.2.2.2.2.2.2.1 hsem "ALG1" "geplant" ""⟩

/-- C8: initialization is idempotent — on a state that already holds a
program it changes nothing; on an empty state it creates exactly one
default program ("Bachelor Cybersecurity", 180 ECTS, duration 8) and
exactly the eight semesters numbered 1 to 8. -/
theorem C8_init_if_needed (db : DB) :
    (db.studiengang ≠ [] → init_if_needed db = db) ∧
    (db.studiengang = [] → db.semester = [] →
      (init_if_needed db).studiengang = [⟨1, "Bachelor Cybersecurity", 180, 8⟩] ∧
      (init_if_needed db).semester.map (fun s => s.nr) = [1, 2, 3, 4, 5, 6, 7, 8] ∧
      (init_if_needed db).semester.map (fun s => s.studiengang_id) =
        [1, 1, 1, 1, 1, 1, 1, 1] ∧
      (init_if_needed db).modul = db.modul ∧
      (init_if_needed db).belegung = db.belegung ∧
      (init_if_needed db).pruefungsleistung = db.pruefungsleistung) := by
  constructor
  · intro h
    unfold init_if_needed
    rw [if_neg (by simpa [List.isEmpty_iff] using h)]
  · intro h hsem
    unfold init_if_needed
    rw [if_pos (by simpa [List.isEmpty_iff] using h)]
    refine ⟨by simp [h], ?_, ?_, rfl, rfl, rfl⟩
    · rw [hsem]
      rfl
    · rw [hsem]
      rfl

/-- The completely empty database state. -/
def dbEmpty : DB := ⟨[], [], [], [], []⟩

/-- C8 witness: initializing the empty state creates the default program
and semesters 1–8; initializing the result again changes nothing. -/
theorem C8_init_if_needed_witness :
    (init_if_needed dbEmpty).studiengang = [⟨1, "Bachelor Cybersecurity", 180, 8⟩] ∧
    (init_if_needed dbEmpty).semester.map (fun s => s.nr) = [1, 2, 3, 4, 5, 6, 7, 8] ∧
    init_if_needed (init_if_needed dbEmpty) = init_if_needed dbEmpty := by
  have h := (C8_init_if_needed dbEmpty).2 rfl rfl
  refine ⟨h.1, h.2.1, ?_⟩
  exact (C8_init_if_needed (init_if_needed dbEmpty)).1 (by rw [h.1]; simp)

/-- C10: `update_pruefungsleistung` leaves every column whose argument is
`None` unchanged — a stored grade or date can never be reset to NULL
through it — and a call with all arguments `None` changes nothing. -/
theorem C10_update_pruefungsleistung_frame (db : DB) (pl_id : ℕ)
    (b d : Option String) (n : Option ℚ) (v : Option ℤ) :
    update_pruefungsleistung db pl_id none none none none = .ok db ∧
    (∀ db', update_pruefungsleistung db pl_id b d n v = .ok db' →
      db'.studiengang = db.studiengang ∧
      db'.semester = db.semester ∧
      db'.modul = db.modul ∧
      db'.belegung = db.belegung ∧
      List.Forall₂ (fun r r' =>
        (b = none → r'.bezeichnung = r.bezeichnung) ∧
        (d = none → r'.datum = r.datum) ∧
        (n = none → r'.note = r.note) ∧
        (v = none → r'.versuch_nr = r.versuch_nr) ∧
        (r.note.isSome → r'.note.isSome) ∧
        (r.datum.isSome → r'.datum.isSome))
        db.pruefungsleistung db'.pruefungsleistung) := by
  constructor
  · unfold update_pruefungsleistung
    simp
  · intro db' hupd
    unfold update_pruefungsleistung at hupd
    by_cases hall : b = none ∧ d = none ∧ n = none ∧ v = none
    · rw [if_pos hall] at hupd
      cases hupd
      refine ⟨rfl, rfl, rfl, rfl, ?_⟩
      rw [List.forall₂_same]
      intro r _
      exact ⟨fun _ => rfl, fun _ => rfl, fun _ => rfl, fun _ => rfl,
        fun hs => hs, fun hs => hs⟩
    · rw [if_neg hall] at hupd
      cases hupd
      refine ⟨rfl, rfl, rfl, rfl, ?_⟩
      rw [List.forall₂_map_right_iff, List.forall₂_same]
      intro r _
      by_cases hid : r.id = pl_id
      · simp only [if_pos hid]
        refine ⟨?_, ?_, ?_, ?_, ?_, ?_⟩
        · intro hb
          simp [hb]
        · intro hd
          simp [hd]
        · intro hn
          simp [hn]
        · intro hv
          simp [hv]
        · intro hs
          cases n with
          | none => simpa using hs
          | some nn => simp
        · intro hs
          cases d with
          | none => simpa using hs
          | some dd => simp
      · simp [if_neg hid]

/-- C10 witness: on the concrete state, the all-None call returns the
state unchanged and a call updating only the description keeps the stored
grade and date of row 1. -/
theorem C10_update_pruefungsleistung_frame_witness :
    update_pruefungsleistung dbC7 1 none none none none = .ok dbC7 ∧
    ∃ db', update_pruefungsleistung dbC7 1 (some "Neu") none none none = .ok db' ∧
      List.Forall₂ (fun (r r' : PLRow) => r'.note = r.note ∧ r'.datum = r.datum)
        dbC7.pruefungsleistung db'.pruefungsleistung := by
  have h1 := (C10_update_pruefungsleistung_frame dbC7 1
    (some "Neu") none none (none : Option ℤ)).1
  refine ⟨h1, ?_⟩
  have hupd : update_pruefungsleistung dbC7 1 (some "Neu") none none none =
      .ok ⟨dbC7.studiengang, dbC7.semester, dbC7.modul, dbC7.belegung,
        [⟨1, "Neu", none, some 2, 1, 1⟩]⟩ := rfl
  have hframe := (C10_update_pruefungsleistung_frame dbC7 1
    (some "Neu") none none (none : Option ℤ)).2 _ hupd
  exact ⟨_, hupd, (hframe.2.2.2.2).imp (fun _ _ hr => ⟨hr.2.2.1 rfl, hr.2.1 rfl⟩)⟩

/-! ## Stability of the `ORDER BY` model -/

/-- Strict lexicographic order on sort key first, position second. -/
def keyLex (key : α → ℤ) (pid : α → ℕ) (a b : α) : Prop :=
  key a < key b ∨ (key a = key b ∧ pid a < pid b)

/-- Every element of `insKey key r l` is `r` or comes from `l`. -/
theorem mem_insKey {key : α → ℤ} {r z : α} {l : List α}
    (h : z ∈ insKey key r l) : z = r ∨ z ∈ l := by
  induction l with
  | nil =>
    unfold insKey at h
    exact Or.inl (List.mem_singleton.mp h)
  | cons x xs ih =>
    unfold insKey at h
    by_cases hc : key r ≤ key x
    · rw [if_pos hc] at h
      rcases List.mem_cons.mp h with h1 | h1
      · exact Or.inl h1
      · exact Or.inr h1
    · rw [if_neg hc] at h
      rcases List.mem_cons.mp h with h1 | h1
      · exact Or.inr (h1 ▸ List.mem_cons_self x xs)
      · rcases ih h1 with h2 | h2
        · exact Or.inl h2
        · exact Or.inr (List.mem_cons_of_mem x h2)

/-- Every element of `sortKey key l` comes from `l`. -/
theorem mem_sortKey {key : α → ℤ} {z : α} {l : List α}
    (h : z ∈ sortKey key l) : z ∈ l := by
  induction l with
  | nil =>
    unfold sortKey at h
    cases h
  | cons x xs ih =>
    unfold sortKey at h
    rcases mem_insKey h with h1 | h1
    · exact h1 ▸ List.mem_cons_self x xs
    · exact List.mem_cons_of_mem x (ih h1)

/-- Inserting an element whose position is before every present element
preserves strict lexicographic sortedness. -/
theorem insKey_pairwise {key : α → ℤ} {pid : α → ℕ} {r : α} {l : List α}
    (hl : l.Pairwise (keyLex key pid)) (hr : ∀ z ∈ l, pid r < pid z) :
    (insKey key r l).Pairwise (keyLex key pid) := by
  induction l with
  | nil => simp [insKey]
  | cons y ys ih =>
    rcases List.pairwise_cons.mp hl with ⟨hy, hys⟩
    unfold insKey
    by_cases hc : key r ≤ key y
    · rw [if_pos hc]
      refine List.pairwise_cons.mpr ⟨?_, hl⟩
      intro z hz
      have hidz : pid r < pid z := hr z hz
      have hkz : key r ≤ key z := by
        rcases List.mem_cons.mp hz with h1 | h1
        · exact h1 ▸ hc
        · rcases hy z h1 with h2 | h2
          · exact le_trans hc (le_of_lt h2)
          · exact le_trans hc (le_of_eq h2.1)
      rcases lt_or_eq_of_le hkz with h2 | h2
      · exact Or.inl h2
      · exact Or.inr ⟨h2, hidz⟩
    · rw [if_neg hc]
      push_neg at hc
      refine List.pairwise_cons.mpr
        ⟨?_, ih hys (fun z hz => hr z (List.mem_cons_of_mem y hz))⟩
      intro z hz
      rcases mem_insKey hz with h1 | h1
      · exact Or.inl (h1 ▸ hc)
      · exact hy z h1

/-- Stable sorting of a list whose positions strictly increase yields a
list strictly sorted by (key, position) lexicographically. -/
theorem sortKey_pairwise {key : α → ℤ} {pid : α → ℕ} {l : List α}
    (hl : l.Pairwise (fun a b => pid a < pid b)) :
    (sortKey key l).Pairwise (keyLex key pid) := by
  induction l with
  | nil => simp [sortKey]
  | cons x xs ih =>
    rcases List.pairwise_cons.mp hl with ⟨hx, hxs⟩
    unfold sortKey
    exact insKey_pairwise (ih hxs) (fun z hz => hx z (mem_sortKey hz))

/-- A pair kept by `parseModulRows` carries a row of the input list. -/
theorem parseModulRows_mem :
    ∀ {l : List ModulRow} {mods : List (ModulRow × Pruefungsform)},
      parseModulRows l = some mods → ∀ mp ∈ mods, mp.1 ∈ l := by
  intro l
  induction l with
  | nil =>
    intro mods h mp hmp
    simp [parseModulRows] at h
    subst h
    cases hmp
  | cons r rs ih =>
    intro mods h mp hmp
    unfold parseModulRows at h
    cases hpf : Pruefungsform.ofString? r.pruefungsform with
    | none => rw [hpf] at h; cases h
    | some pf =>
      rw [hpf] at h
      cases hrest : parseModulRows rs with
      | none => rw [hrest] at h; cases h
      | some rest =>
        rw [hrest] at h
        cases h
        rcases List.mem_cons.mp hmp with h1 | h1
        · subst h1
          exact List.mem_cons_self r rs
        · exact List.mem_cons_of_mem r (ih hrest mp h1)

/-- C9: graph construction attaches to each Module exactly the stored
ExamResult rows ordered by attempt number first and, among equal attempt
numbers, by insertion (rowid) order. Insertion order of the table is the
hypothesis that rowids strictly increase along it. -/
theorem C9_load_domain_ordering (db : DB) (sg : Studiengang)
    (hids : db.pruefungsleistung.Pairwise (fun a b => a.id < b.id))
    (hok : load_domain db = .ok sg) :
    (∀ m ∈ sg.module, ∃ r ∈ db.modul, m.leistungen = (modulRows db r.id).map toPL) ∧
    (∀ mid, (modulRows db mid).Pairwise (fun a b =>
      a.versuch_nr < b.versuch_nr ∨ (a.versuch_nr = b.versuch_nr ∧ a.id < b.id))) := by
  constructor
  · intro m hm
    unfold load_domain at hok
    cases hsg : db.studiengang.head? with
    | none =>
      rw [hsg] at hok
      cases hok
    | some sgr =>
      rw [hsg] at hok
      simp only at hok
      cases hpm : parseModulRows (db.modul.filter (fun mr => mr.studiengang_id = sgr.id)) with
      | none =>
        rw [hpm] at hok
        cases hok
      | some mods =>
        rw [hpm] at hok
        simp only at hok
        by_cases hbel : db.belegung.all (fun b =>
            ((sortKey (fun s => s.nr) (db.semester.filter
              (fun s => s.studiengang_id = sgr.id))).any (fun s => s.id = b.semester_id)) &&
            ((db.modul.filter (fun mr => mr.studiengang_id = sgr.id)).any
              (fun mr => mr.id = b.modul_id))) = true
        · rw [if_pos hbel] at hok
          by_cases hpl : db.pruefungsleistung.all (fun p =>
              (db.modul.filter (fun mr => mr.studiengang_id = sgr.id)).any
                (fun mr => mr.id = p.modul_id)) = true
          · rw [if_pos hpl] at hok
            injection hok with hok
            subst hok
            have hm' : m ∈ mods.map (fun mp => toModul db mp.1 mp.2) := hm
            obtain ⟨mp, hmp, hme⟩ := List.mem_map.mp hm'
            refine ⟨mp.1, ?_, ?_⟩
            · exact List.mem_of_mem_filter (parseModulRows_mem hpm mp hmp)
            · rw [← hme]
              rfl
          · rw [if_neg hpl] at hok
            cases hok
        · rw [if_neg hbel] at hok
          cases hok
  · intro mid
    unfold modulRows
    exact (sortKey_pairwise hids).filter _

/-- Concrete stored state: one module with two exam results inserted in
the order (id 1, attempt 2) then (id 2, attempt 1). -/
def dbLoad : DB :=
  ⟨[⟨1, "Bachelor Cybersecurity", 180, 8⟩],
   [⟨1, 1, "Semester 1", 1⟩],
   [⟨1, "Algorithms", "ALG1", 5, "KLAUSUR", 1⟩],
   [⟨1, "geplant", "", 1, 1⟩],
   [⟨1, "Klausur", none, some 2, 2, 1⟩, ⟨2, "Klausur", none, some 3, 1, 1⟩]⟩

/-- The module as `load_domain` builds it from `dbLoad`: the attempt-1
result (inserted second) comes before the attempt-2 result. -/
def modLoad : Modul :=
  ⟨"Algorithms", "ALG1", 5, .KLAUSUR,
   [⟨"Klausur", none, some 3, 1⟩, ⟨"Klausur", none, some 2, 2⟩]⟩

/-- The domain graph `load_domain` builds from `dbLoad`. -/
def sgLoad : Studiengang :=
  ⟨"Bachelor Cybersecurity", 180, 8, [⟨1, "Semester 1", [modLoad], []⟩], [modLoad]⟩

/-- C9 witness: on the concrete state the attached list is sorted by
attempt then insertion order, and the loaded module carries exactly the
sorted rows. -/
theorem C9_load_domain_ordering_witness :
    (modulRows dbLoad 1).Pairwise (fun a b =>
      a.versuch_nr < b.versuch_nr ∨ (a.versuch_nr = b.versuch_nr ∧ a.id < b.id)) ∧
    modLoad.leistungen = (modulRows dbLoad 1).map toPL := by
  have h := C9_load_domain_ordering dbLoad sgLoad
    (by simp [dbLoad, List.pairwise_cons]) rfl
  refine ⟨h.2 1, ?_⟩
  obtain ⟨r, hr, heq⟩ := h.1 modLoad (by simp [sgLoad])
  have hr1 : r = ⟨1, "Algorithms", "ALG1", 5, "KLAUSUR", 1⟩ := by
    simpa [dbLoad] using hr
  rw [heq, hr1]
